import Mathlib

/-!
Shallow embedding of the scoring and portfolio-partitioning engine of the
quant-screener repository (files 02_fundamentals.py, 02_deep_valuation.py,
03_quant_risk_models.py, 04_perplexity_narrative.py, 05_portfolio_allocator.py).

Numbers are embedded as rationals (ℚ) except where the source computes an
irrational quantity (square roots, exponentials in the Monte Carlo branch),
which is embedded in ℝ.  A missing value (Python None / pandas NaN cell) is
`none` of an `Option` type.  Pandas column operations are embedded per-row
over lists of rows, with the documented semantics of the library calls the
source makes (`Series.rank`, `Series.clip`, `sort_values`, `head`, boolean
masks).
-/

namespace QuantScreener

/-- Embeds the Python idiom `info.get(key, default) or default` applied to an
optional numeric field: an absent (or falsy, i.e. zero) value is replaced by
the default. -/
def pyOr (v : Option ℚ) (d : ℚ) : ℚ :=
  match v with
  | none => d
  | some x => if x = 0 then d else x

/-- Round to the nearest integer, halves to the even integer — the rounding
used by Python `round` and numpy/pandas `.round`. -/
def roundHalfEven (q : ℚ) : ℤ :=
  if q - (⌊q⌋ : ℚ) < 1/2 then ⌊q⌋
  else if 1/2 < q - (⌊q⌋ : ℚ) then ⌊q⌋ + 1
  else if ⌊q⌋ % 2 = 0 then ⌊q⌋ else ⌊q⌋ + 1

/-- Embeds `round(x, nd)` / `Series.round(nd)`: round to `nd` decimal places,
halves to even. -/
def roundTo (nd : ℕ) (q : ℚ) : ℚ :=
  (roundHalfEven (q * 10 ^ nd) : ℚ) / 10 ^ nd

/-! ## Pandas percentile rank

`Series.rank(pct=True, na_option="bottom")` with the default `method="average"`:
non-null values are ranked ascending from 1, tied values sharing the average
rank of their tie group; null (NaN) values are placed at the *bottom* of the
sort order, i.e. they receive the **highest** ranks (they form one tie group
above every non-null value); every entry then gets a rank, and `pct=True`
divides each rank by the length of the series. -/

/-- The percentile rank that `Series.rank(pct=True, na_option="bottom")`
assigns to an entry of value `v` inside the column `col`. -/
def rank_bottom_pct (col : List (Option ℚ)) (v : Option ℚ) : ℚ :=
  match v with
  | some x =>
      let lt := (col.filter (fun o => match o with | some y => decide (y < x) | none => false)).length
      let eq := (col.filter (fun o => decide (o = some x))).length
      ((lt : ℚ) + ((eq : ℚ) + 1) / 2) / (col.length : ℚ)
  | none =>
      let valid := (col.filter (fun o => o.isSome)).length
      let miss := (col.filter (fun o => o.isNone)).length
      ((valid : ℚ) + ((miss : ℚ) + 1) / 2) / (col.length : ℚ)

/-- Embeds the `pct` helper shared by `_score_universe` in 02_fundamentals.py,
02_deep_valuation.py and 03_quant_risk_models.py:
`ranked = df[col].rank(pct=True, na_option="bottom")` followed by
`(1 - ranked) if invert else ranked`, as the list of per-entry outputs. -/
def pct (col : List (Option ℚ)) (invert : Bool) : List ℚ :=
  col.map (fun v =>
    let ranked := rank_bottom_pct col v
    if invert then 1 - ranked else ranked)

/-! ## Kelly capital sizing (05_portfolio_allocator.py) -/

/-- Embeds `_kelly_criterion`: half-Kelly fraction as a percentage, capped to
[0, 25] and rounded to one decimal.  Degenerate inputs (zero average loss,
win rate outside (0,1)) default to 5.0; the `except` branch, which catches the
`ZeroDivisionError` raised when `b = avg_win / avg_loss` is zero, also
returns 5.0. -/
def kelly_criterion (win_rate avg_win avg_loss : ℚ) : ℚ :=
  if avg_loss = 0 ∨ win_rate ≤ 0 ∨ 1 ≤ win_rate then 5
  else
    let b := avg_win / avg_loss
    if b = 0 then 5
    else
      let q := 1 - win_rate
      let kelly := (win_rate * b - q) / b
      let half_kelly := kelly / 2
      roundTo 1 (max 0 (min (half_kelly * 100) 25))

/-- Embeds the per-row computation of `Kelly_Position_Pct` in `_add_kelly`:
`(base_kelly + modifier * 50).clip(1.0, 25.0).round(1)` where
`modifier = (score.fillna(50) - 50) / 200` for the row's adjustment score
(`Narrative_Score`, `Deep_Value_Score` or `Quant_Risk_Score`, depending on
the bucket and the available columns). -/
def kelly_position_pct (win_rate avg_win avg_loss : ℚ) (score : Option ℚ) : ℚ :=
  let base_kelly := kelly_criterion win_rate avg_win avg_loss
  let modifier := (score.getD 50 - 50) / 200
  roundTo 1 (min (max (base_kelly + modifier * 50) 1) 25)

/-! ## Piotroski F-score (02_fundamentals.py, `_piotroski_f_score`) -/

/-- The yfinance `info` fields read by `_piotroski_f_score`; `none` is an
absent field. -/
structure FundamentalsInfo where
  returnOnAssets : Option ℚ
  operatingCashflow : Option ℚ
  totalAssets : Option ℚ
  currentRatio : Option ℚ
  sharesOutstanding : Option ℚ
  grossMargins : Option ℚ
  totalRevenue : Option ℚ
  longTermDebt : Option ℚ
  netIncomeToCommon : Option ℚ
  deriving DecidableEq, Repr

/-- Embeds `_piotroski_f_score`: nine single-period boolean checks summed.
Missing fields are defaulted by `info.get(key, d) or d` (default 0, except
total assets and revenue, which default to 1), so the two `try`-guarded
divisions can never raise. -/
def piotroski_f_score (info : FundamentalsInfo) : ℕ :=
  let roa := pyOr info.returnOnAssets 0
  let cfo := pyOr info.operatingCashflow 0
  let total_assets := pyOr info.totalAssets 1
  let curr_ratio := pyOr info.currentRatio 0
  let shares := pyOr info.sharesOutstanding 0
  let gross_margin := pyOr info.grossMargins 0
  let revenue := pyOr info.totalRevenue 1
  let lt_debt := pyOr info.longTermDebt 0
  let net_income := pyOr info.netIncomeToCommon 0
  (if 0 < roa then 1 else 0)
  + (if 0 < cfo then 1 else 0)
  + (if 0 < net_income then 1 else 0)
  + (if roa < cfo / total_assets then 1 else 0)
  + (if lt_debt / total_assets < 1/2 then 1 else 0)
  + (if 1 < curr_ratio then 1 else 0)
  + (if 0 < shares then 1 else 0)
  + (if 0 < gross_margin then 1 else 0)
  + (if 0 < revenue / total_assets then 1 else 0)

/-- The input with every field absent. -/
def allMissingInfo : FundamentalsInfo :=
  ⟨none, none, none, none, none, none, none, none, none⟩

/-! ## Altman Z-score (02_fundamentals.py, `_altman_z_score`) -/

/-- Embeds the numeric core of `_altman_z_score`: the eight extracted inputs
(each `none` when the statement row is absent or NaN), returning `none` when
any input is missing or a denominator (total assets, total liabilities) is
zero, otherwise the rounded weighted sum. -/
def altman_z_score (total_assets current_assets current_liabilities retained_earnings
    total_liabilities ebit market_cap revenue : Option ℚ) : Option ℚ :=
  match total_assets, current_assets, current_liabilities, retained_earnings,
      total_liabilities, ebit, market_cap, revenue with
  | some ta, some ca, some cl, some re, some tl, some eb, some mc, some rv =>
      if ta = 0 ∨ tl = 0 then none
      else
        let x1 := (ca - cl) / ta
        let x2 := re / ta
        let x3 := eb / ta
        let x4 := mc / tl
        let x5 := rv / ta
        some (roundTo 3 (1.2 * x1 + 1.4 * x2 + 3.3 * x3 + 0.6 * x4 + 1.0 * x5))
  | _, _, _, _, _, _, _, _ => none

/-! ## Annualized risk metrics (02_fundamentals.py, `_risk_metrics`) -/

/-- Embeds `close.pct_change().dropna()`: successive simple returns
`c_t / c_{t-1} - 1`.  (The leading NaN produced by `pct_change` is exactly the
element `dropna` removes, so the output has one element fewer than the
input.) -/
def pct_change (close : List ℚ) : List ℚ :=
  List.zipWith (fun prev cur => cur / prev - 1) close close.tail

/-- Embeds `Series.mean()`: `none` (NaN) for an empty series. -/
def listMean (xs : List ℚ) : Option ℚ :=
  if xs.length = 0 then none else some (xs.sum / (xs.length : ℚ))

/-- Embeds the square of `Series.std()` (sample variance, `ddof=1`):
`none` (NaN) when the series has fewer than two elements.  The source's
standard deviation is `Real.sqrt` of this. -/
def sampleVariance (xs : List ℚ) : Option ℚ :=
  if xs.length < 2 then none
  else
    let m := xs.sum / (xs.length : ℚ)
    some ((xs.map (fun x => (x - m) ^ 2)).sum / ((xs.length : ℚ) - 1))

/-- Helper for `Series.cummax()`: running maxima continuing from `m`. -/
def cummaxAux (m : ℚ) : List ℚ → List ℚ
  | [] => []
  | x :: xs => max m x :: cummaxAux (max m x) xs

/-- Embeds `Series.cummax()`. -/
def cummax : List ℚ → List ℚ
  | [] => []
  | x :: xs => x :: cummaxAux x xs

/-- Embeds `drawdown = (close - rolling_max) / rolling_max`. -/
def drawdowns (close : List ℚ) : List ℚ :=
  List.zipWith (fun c m => (c - m) / m) close (cummax close)

/-- The four outputs of `_risk_metrics`.  Annualized volatility and Sharpe are
real-valued because the source multiplies by `sqrt(252)`. -/
structure RiskMetrics where
  annReturn : Option ℚ
  annVolatility : Option ℝ
  sharpeRatio : Option ℝ
  maxDrawdown : Option ℚ

/-- Embeds `_risk_metrics` on the non-null close series: fewer than 60
observations raises `ValueError`, caught by the `except` branch that returns
all-NaN.  Otherwise: annualized return `(1+mean)^252 - 1`, annualized
volatility `std * sqrt(252)`, Sharpe `(ann_return - 0.04) / ann_vol` guarded
by `ann_vol != 0`, and max drawdown as the minimum of the drawdown series.
(The match's catch-all arm is unreachable: 60 closes give at least 59
returns, so mean and variance are defined.) -/
noncomputable def risk_metrics (close : List ℚ) : RiskMetrics :=
  if close.length < 60 then ⟨none, none, none, none⟩
  else
    let daily_returns := pct_change close
    match listMean daily_returns, sampleVariance daily_returns with
    | some m, some v =>
        let ann_return := (1 + m) ^ 252 - 1
        let ann_vol : ℝ := Real.sqrt (v : ℝ) * Real.sqrt 252
        let sharpe : Option ℝ :=
          if ann_vol ≠ 0 then some ((((ann_return : ℚ) : ℝ) - 0.04) / ann_vol) else none
        ⟨some ann_return, some ann_vol, sharpe, (drawdowns close).min?⟩
    | _, _ => ⟨none, none, none, none⟩

/-! ## Monte Carlo VaR (03_quant_risk_models.py, `_monte_carlo_var`) -/

/-- Models `numpy.random.default_rng(seed).normal(mu, sig, (paths, days))` as
an arbitrary pure function of the seed and the distribution parameters: the
numpy generator (PCG64) is a deterministic algorithm, so the drawn matrix is
a mathematical function of these arguments.  Quantifying theorems over every
such sampler makes them independent of the generator's internals. -/
structure NormalSampler where
  draw : ℕ → ℝ → ℝ → ℕ → ℕ → List (List ℝ)

/-- Embeds `numpy.percentile(xs, p)` with the default linear interpolation:
sort ascending, take the virtual index `(n-1) * p / 100`, and interpolate
linearly between its floor and ceiling neighbours. -/
noncomputable def np_percentile (xs : List ℝ) (p : ℚ) : ℝ :=
  let s := xs.mergeSort (fun a b => decide (a ≤ b))
  let h : ℚ := ((s.length : ℚ) - 1) * p / 100
  let lo := s.getD (⌊h⌋).toNat 0
  let hi := s.getD (⌈h⌉).toNat 0
  lo + (hi - lo) * (((h - (⌊h⌋ : ℚ)) : ℚ) : ℝ)

/-- Embeds `_monte_carlo_var`.  The `ambient_rng` argument is the process's
global random state, threaded explicitly as stateful code is: the source
never touches it (it builds a fresh generator from the fixed seed 42), so it
is returned unchanged, and the result component depends only on the input
series.  The guard `np.isnan(mu) or np.isnan(sig) or sig == 0` is embedded
as: the mean is undefined (empty series), or the standard deviation is
undefined (fewer than two observations), or the variance is zero.  Otherwise
1000 paths of 252 shocks are drawn, each path's shocks are summed and
exponentiated to a terminal simple return, and the result is the absolute
value of the 5th percentile of terminal returns. -/
noncomputable def monte_carlo_var (sampler : NormalSampler) (ambient_rng : ℕ)
    (log_returns : List ℚ) : ℝ × ℕ :=
  let mu := listMean log_returns
  let sig_sq := sampleVariance log_returns
  if mu.isNone ∨ sig_sq.isNone ∨ sig_sq = some 0 then (0, ambient_rng)
  else
    let sig : ℝ := Real.sqrt ((sig_sq.getD 0 : ℚ) : ℝ)
    let shocks := sampler.draw 42 ((mu.getD 0 : ℚ) : ℝ) sig 1000 252
    let terminal_returns := shocks.map (fun path => Real.exp path.sum - 1)
    (|np_percentile terminal_returns 5|, ambient_rng)

/-- A concrete sampler used to instantiate closed witnesses. -/
def zeroSampler : NormalSampler := ⟨fun _ _ _ _ _ => []⟩

/-! ## Portfolio allocator (05_portfolio_allocator.py, `build_portfolios`)

A DataFrame row, restricted to the columns `build_portfolios` reads.  The
embedding assumes the combined frame produced by `run_portfolio_allocator`
carries these columns (cells may still be NaN, i.e. `none`); the `_pool`
column's presence, which changes pool selection materially, is kept as an
explicit flag. -/

structure Row where
  ticker : String
  pool : String
  relative_volume : Option ℚ
  momentum_1m : Option ℚ
  short_interest_pct : Option ℚ
  atr_14 : Option ℚ
  narrative_score : Option ℚ
  hurst_exponent : Option ℚ
  sma_200 : Option ℚ
  last_price : Option ℚ
  top10_institutional_pct : Option ℚ
  rs_vs_spy : Option ℚ
  quant_risk_score : Option ℚ
  margin_of_safety : Option ℚ
  deep_value_score : Option ℚ
  piotroski_f : Option ℚ
  altman_z : Option ℚ
  fundamental_score : Option ℚ
  beneish_m : Option ℚ
  deriving DecidableEq, Repr

/-- Embeds `_pool_candidates`: rows tagged with the pool (all rows when the
`_pool` column is absent), minus the already-assigned tickers (the filter is
skipped when the exclusion list is empty/falsy), falling back to the whole
frame minus the excluded tickers when the pool comes out empty. -/
def pool_candidates (has_pool : Bool) (df : List Row) (pool_tag : String)
    (exclude_tickers : List String) : List Row :=
  let pool_df := if has_pool then df.filter (fun r => r.pool == pool_tag) else df
  let pool_df :=
    if exclude_tickers.isEmpty then pool_df
    else pool_df.filter (fun r => !(exclude_tickers.contains r.ticker))
  if !pool_df.isEmpty then pool_df
  else df.filter (fun r => !(exclude_tickers.contains r.ticker))

/-- Descending comparison of sort keys with NaN last —
`sort_values(ascending=False)` with the default `na_position="last"`. -/
def optDescCmp (a b : Option ℚ) : Ordering :=
  match a, b with
  | some x, some y => compare y x
  | some _, none => .lt
  | none, some _ => .gt
  | none, none => .eq

/-- Lexicographic extension of `optDescCmp` to multi-column sort keys. -/
def keysCmp : List (Option ℚ) → List (Option ℚ) → Ordering
  | [], _ => .eq
  | _ :: _, [] => .eq
  | a :: as, b :: bs =>
      match optDescCmp a b with
      | .eq => keysCmp as bs
      | o => o

/-- Insert into a list ordered by the strict comparator `before`. -/
def insertOrd {α : Type} (before : α → α → Bool) (a : α) : List α → List α
  | [] => [a]
  | b :: bs => if before a b then a :: b :: bs else b :: insertOrd before a bs

/-- Insertion sort by the strict comparator `before` (a stable comparison
sort; `sort_values` leaves the relative order of tied keys unspecified, and
any membership-preserving reordering by the same keys is a faithful
embedding). -/
def sortOrd {α : Type} (before : α → α → Bool) : List α → List α
  | [] => []
  | a :: as => insertOrd before a (sortOrd before as)

/-- Embeds `DataFrame.sort_values(keys, ascending=False)`. -/
def sort_values (key : Row → List (Option ℚ)) (df : List Row) : List Row :=
  sortOrd (fun r s => keysCmp (key r) (key s) == Ordering.lt) df

/-- Embeds the `CT_Score` column: percentile ranks (NaN ranked bottom) of
relative volume, 1-month momentum, short interest and ATR across the
short-term candidates, weighted 30/25/25/20. -/
def ct_score (cands : List Row) (r : Row) : ℚ :=
  rank_bottom_pct (cands.map (·.relative_volume)) r.relative_volume * 30
  + rank_bottom_pct (cands.map (·.momentum_1m)) r.momentum_1m * 25
  + rank_bottom_pct (cands.map (·.short_interest_pct)) r.short_interest_pct * 25
  + rank_bottom_pct (cands.map (·.atr_14)) r.atr_14 * 20

/-- Embeds the `MT_Score` column: Hurst*35 + Institutional*30 + RS_vs_SPY*20
+ Quant_Risk_Score*15, each percentile-ranked over the filtered medium-term
candidates. -/
def mt_score (cands : List Row) (r : Row) : ℚ :=
  rank_bottom_pct (cands.map (·.hurst_exponent)) r.hurst_exponent * 35
  + rank_bottom_pct (cands.map (·.top10_institutional_pct)) r.top10_institutional_pct * 30
  + rank_bottom_pct (cands.map (·.rs_vs_spy)) r.rs_vs_spy * 20
  + rank_bottom_pct (cands.map (·.quant_risk_score)) r.quant_risk_score * 15

/-- A medium-term relaxation tier: (hurst_min, require_sma200, require_inst). -/
structure MtRule where
  hurst_min : ℚ
  require_sma200 : Bool
  require_inst : Bool
  deriving DecidableEq, Repr

/-- The medium-term relaxation tiers of `build_portfolios`. -/
def mt_rules : List MtRule :=
  [⟨0.52, true, true⟩, ⟨0.50, true, false⟩, ⟨0.48, false, false⟩, ⟨0, false, false⟩]

/-- Embeds one medium-term tier's boolean mask on one row: a NaN Hurst fails
the comparison (pandas `NaN > x` is false); price and SMA and institutional
share are `fillna(0)`-defaulted. -/
def mt_mask (rule : MtRule) (r : Row) : Bool :=
  (if 0 < rule.hurst_min then
      match r.hurst_exponent with
      | some h => decide (rule.hurst_min < h)
      | none => false
    else true)
  && (if rule.require_sma200 then decide (r.sma_200.getD 0 < r.last_price.getD 0) else true)
  && (if rule.require_inst then decide ((0.20 : ℚ) < r.top10_institutional_pct.getD 0) else true)

/-- A long-term relaxation tier in `build_portfolios`:
(mos_min, dv_min, pio_min, alt_min) — four components, no manipulation-gate
flag. -/
structure LtRule where
  mos_min : Option ℚ
  dv_min : ℚ
  pio_min : ℚ
  alt_min : ℚ
  deriving DecidableEq, Repr

/-- The long-term relaxation tiers of `build_portfolios` — note they are
4-tuples; none of them carries or applies a Beneish manipulation gate. -/
def lt_rules : List LtRule :=
  [⟨some 0.10, 55, 7, 2.99⟩, ⟨some 0.10, 40, 6, 2.50⟩,
   ⟨some 0.05, 30, 5, 1.81⟩, ⟨some 0, 0, 0, 0⟩]

/-- Embeds one long-term tier's boolean mask in `build_portfolios`: margin of
safety and deep-value comparisons fail on NaN; Piotroski and Altman are
`fillna(0)`-defaulted.  (`mos_min is not None` is modelled by the `Option`
pattern; in `lt_rules` it is always `some`.) -/
def lt_mask (rule : LtRule) (r : Row) : Bool :=
  (match rule.mos_min with
   | some m =>
       match r.margin_of_safety with
       | some v => decide (m < v)
       | none => false
   | none => true)
  && (if 0 < rule.dv_min then
        match r.deep_value_score with
        | some v => decide (rule.dv_min < v)
        | none => false
      else true)
  && (if 0 < rule.pio_min then decide (rule.pio_min ≤ r.piotroski_f.getD 0) else true)
  && (if 0 < rule.alt_min then decide (rule.alt_min ≤ r.altman_z.getD 0) else true)

/-- Embeds the progressive relaxation loop shared by the medium- and
long-term buckets: apply each tier's mask in order, stopping at the first
tier with at least 5 survivors; after the last tier, whatever it selected
stands. -/
def progressive_filter {α : Type} (mask : α → Row → Bool) :
    List α → List Row → List Row
  | [], _ => []
  | [rule], cands => cands.filter (mask rule)
  | rule :: rules, cands =>
      let f := cands.filter (mask rule)
      if 5 ≤ f.length then f else progressive_filter mask rules cands

/-- Embeds the `if filtered.empty: filtered = cands` fallback after the
relaxation loop. -/
def filtered_or_all (cands flt : List Row) : List Row :=
  if flt.isEmpty then cands else flt

/-- The short-term (Court Terme) bucket: candidates of pool "court" (no
exclusions), sorted by CT_Score then Narrative_Score descending, top 5. -/
def ct_bucket (has_pool : Bool) (df : List Row) : List Row :=
  let ct_cands := pool_candidates has_pool df "court" []
  (sort_values (fun r => [some (ct_score ct_cands r), r.narrative_score]) ct_cands).take 5

/-- `short_term["ticker"].tolist()`. -/
def ct_tickers (has_pool : Bool) (df : List Row) : List String :=
  (ct_bucket has_pool df).map (·.ticker)

/-- The medium-term (Moyen Terme) bucket: pool "moyen" minus the short
bucket's tickers, progressively relaxed through `mt_rules` (falling back to
the unfiltered candidates if every tier empties), sorted by MT_Score
descending, top 5. -/
def mt_bucket (has_pool : Bool) (df : List Row) : List Row :=
  let mt_cands := pool_candidates has_pool df "moyen" (ct_tickers has_pool df)
  let filtered_mt := filtered_or_all mt_cands (progressive_filter mt_mask mt_rules mt_cands)
  (sort_values (fun r => [some (mt_score filtered_mt r)]) filtered_mt).take 5

/-- `medium_term["ticker"].tolist()`. -/
def mt_tickers (has_pool : Bool) (df : List Row) : List String :=
  (mt_bucket has_pool df).map (·.ticker)

/-- The long-term (Long Terme) bucket: pool "long" minus the short and
medium buckets' tickers, progressively relaxed through `lt_rules` (falling
back to the unfiltered candidates if every tier empties), sorted by margin
of safety, deep-value score, fundamental score descending, top 5. -/
def lt_bucket (has_pool : Bool) (df : List Row) : List Row :=
  let lt_cands :=
    pool_candidates has_pool df "long" (ct_tickers has_pool df ++ mt_tickers has_pool df)
  let filtered_lt := filtered_or_all lt_cands (progressive_filter lt_mask lt_rules lt_cands)
  (sort_values (fun r => [r.margin_of_safety, r.deep_value_score, r.fundamental_score])
    filtered_lt).take 5

/-- The three buckets returned by `build_portfolios`. -/
structure Portfolios where
  short_term : List Row
  medium_term : List Row
  long_term : List Row
  deriving DecidableEq, Repr

/-- Embeds `build_portfolios` up to bucket membership.  (`_add_kelly` only
appends the `Kelly_Position_Pct` column — embedded separately as
`kelly_position_pct` — and the `[available]` projection only drops columns;
neither changes which tickers are in a bucket.) -/
def build_portfolios (has_pool : Bool) (df : List Row) : Portfolios :=
  ⟨ct_bucket has_pool df, mt_bucket has_pool df, lt_bucket has_pool df⟩

/-! ## The narrative-stage long-term pre-selection
(04_perplexity_narrative.py, `run_perplexity_narrative`): this is where the
Beneish manipulation gate lives.  Its relaxation tiers are 5-tuples ending in
a gate flag. -/

/-- A long-term relaxation tier of the narrative stage:
(mos_min, dv_min, pio_min, alt_min, ben_gate). -/
structure LtRuleNarrative where
  mos_min : Option ℚ
  dv_min : ℚ
  pio_min : ℚ
  alt_min : ℚ
  ben_gate : Bool
  deriving DecidableEq, Repr

/-- The narrative stage's long-term tiers: the manipulation gate is enabled
on the first three and disabled on the last-resort tier. -/
def lt_rules_narrative : List LtRuleNarrative :=
  [⟨some 0.10, 55, 7, 2.99, true⟩, ⟨some 0.10, 40, 6, 2.50, true⟩,
   ⟨some 0.05, 30, 5, 1.81, true⟩, ⟨some 0, 0, 0, 0, false⟩]

/-- Embeds one narrative-stage long-term tier's mask: the already-assigned
tickers are excluded inside the mask, and when the gate is enabled the row
must satisfy `Beneish_M_Score.fillna(0) <= -1.78`. -/
def lt_mask_narrative (exclude : List String) (rule : LtRuleNarrative) (r : Row) : Bool :=
  !(exclude.contains r.ticker)
  && (match rule.mos_min with
      | some m =>
          match r.margin_of_safety with
          | some v => decide (m < v)
          | none => false
      | none => true)
  && (if 0 < rule.dv_min then
        match r.deep_value_score with
        | some v => decide (rule.dv_min < v)
        | none => false
      else true)
  && (if 0 < rule.pio_min then decide (rule.pio_min ≤ r.piotroski_f.getD 0) else true)
  && (if 0 < rule.alt_min then decide (rule.alt_min ≤ r.altman_z.getD 0) else true)
  && (if rule.ben_gate then decide (r.beneish_m.getD 0 ≤ -1.78) else true)

/-! ## Concrete rows used by counterexamples and witnesses -/

/-- A short-pool candidate (used to populate the short bucket in the concrete
universes below). -/
def ctRow : Row :=
  { ticker := "CT1", pool := "court", relative_volume := some 2,
    momentum_1m := some 1, short_interest_pct := some 0.1, atr_14 := some 1,
    narrative_score := some 80, hurst_exponent := none, sma_200 := none,
    last_price := some 10, top10_institutional_pct := none, rs_vs_spy := none,
    quant_risk_score := none, margin_of_safety := none, deep_value_score := none,
    piotroski_f := none, altman_z := none, fundamental_score := none,
    beneish_m := none }

/-- A medium-pool candidate that passes the strictest medium-term tier. -/
def mtRow : Row :=
  { ticker := "MT1", pool := "moyen", relative_volume := none,
    momentum_1m := none, short_interest_pct := none, atr_14 := none,
    narrative_score := none, hurst_exponent := some 0.6, sma_200 := some 5,
    last_price := some 10, top10_institutional_pct := some 0.5,
    rs_vs_spy := some 1, quant_risk_score := some 70, margin_of_safety := none,
    deep_value_score := none, piotroski_f := none, altman_z := none,
    fundamental_score := none, beneish_m := none }

/-- A long-pool candidate that passes the strictest long-term tier of
`build_portfolios` while carrying a Beneish M-score of 0 (far above the
−1.78 manipulation threshold). -/
def ltRow : Row :=
  { ticker := "LT1", pool := "long", relative_volume := none,
    momentum_1m := none, short_interest_pct := none, atr_14 := none,
    narrative_score := none, hurst_exponent := none, sma_200 := none,
    last_price := some 20, top10_institutional_pct := none, rs_vs_spy := none,
    quant_risk_score := none, margin_of_safety := some 0.2,
    deep_value_score := some 60, piotroski_f := some 8, altman_z := some 3.5,
    fundamental_score := some 50, beneish_m := some 0 }

/-- A three-pool universe with one candidate per pool. -/
def exampleDf : List Row := [ctRow, mtRow, ltRow]

/-! # Theorems

Helper lemmas first, then one theorem per claim (with its witness or
counterexample where required). -/

theorem roundHalfEven_mem (q : ℚ) :
    roundHalfEven q = ⌊q⌋ ∨ roundHalfEven q = ⌊q⌋ + 1 := by
  unfold roundHalfEven
  split
  · exact Or.inl rfl
  · split
    · exact Or.inr rfl
    · split
      · exact Or.inl rfl
      · exact Or.inr rfl

theorem roundHalfEven_bounds {m M : ℤ} {q : ℚ} (hm : (m : ℚ) ≤ q) (hM : q ≤ (M : ℚ)) :
    m ≤ roundHalfEven q ∧ roundHalfEven q ≤ M := by
  have hfm : m ≤ ⌊q⌋ := Int.le_floor.mpr hm
  have hfM : (⌊q⌋ : ℚ) ≤ (M : ℚ) := le_trans (Int.floor_le q) hM
  have hfM' : ⌊q⌋ ≤ M := by exact_mod_cast hfM
  rcases roundHalfEven_mem q with h | h
  · constructor
    · omega
    · omega
  · -- the rounded value is ⌊q⌋ + 1, which happens only when 1/2 ≤ q - ⌊q⌋
    have hhalf : ¬ (q - (⌊q⌋ : ℚ) < 1/2) := by
      unfold roundHalfEven at h
      by_contra hc
      rw [if_pos hc] at h
      omega
    push_neg at hhalf
    have : (⌊q⌋ : ℚ) + 1/2 ≤ (M : ℚ) := by linarith
    have hlt : (⌊q⌋ : ℚ) < (M : ℚ) := by linarith
    have : ⌊q⌋ < M := by exact_mod_cast hlt
    constructor
    · omega
    · omega

theorem roundTo_bounds {m M : ℤ} {q : ℚ} (nd : ℕ) (hm : (m : ℚ) ≤ q) (hM : q ≤ (M : ℚ)) :
    (m : ℚ) ≤ roundTo nd q ∧ roundTo nd q ≤ (M : ℚ) := by
  unfold roundTo
  have hp : (0 : ℚ) < 10 ^ nd := by positivity
  have h1 : ((m * 10 ^ nd : ℤ) : ℚ) ≤ q * 10 ^ nd := by
    push_cast
    nlinarith
  have h2 : q * 10 ^ nd ≤ ((M * 10 ^ nd : ℤ) : ℚ) := by
    push_cast
    nlinarith
  obtain ⟨hl, hr⟩ := roundHalfEven_bounds h1 h2
  have hl' : ((m * 10 ^ nd : ℤ) : ℚ) ≤ (roundHalfEven (q * 10 ^ nd) : ℚ) := by exact_mod_cast hl
  have hr' : ((roundHalfEven (q * 10 ^ nd) : ℤ) : ℚ) ≤ ((M * 10 ^ nd : ℤ) : ℚ) := by
    exact_mod_cast hr
  constructor
  · rw [le_div_iff₀ hp]
    push_cast at hl' ⊢
    linarith
  · rw [div_le_iff₀ hp]
    push_cast at hr' ⊢
    linarith

/-- C2 — code_bug evidence.  The percentile-scoring primitive at the failing
input: in the column `[1.0, NaN]` with `invert = false`, the missing entry
receives the **highest** percentile rank 1.0 (pandas `na_option="bottom"`
places NaN at the bottom of the sort order, i.e. assigns it the highest
rank), while the non-missing maximum receives only 0.5 — contradicting the
claim (and the source's own docstring) that a missing value gets the lowest
possible rank and can never advantage a candidate over a non-missing one. -/
theorem pct_missing_gets_highest_rank :
    pct [some 1, none] false = [1/2, 1] ∧
    rank_bottom_pct [some 1, none] none = 1 ∧
    rank_bottom_pct [some 1, none] (some 1) = 1/2 ∧
    (1/2 : ℚ) < 1 := by
  refine ⟨?_, ?_, ?_, by norm_num⟩ <;>
    simp [pct, rank_bottom_pct, List.filter]

/-- C8 — code_bug evidence.  At the failing input `[1.0, NaN]` the security
holding the maximum non-missing raw value receives percentile rank 0.5 — not
1.0 when `invert` is false, and not 0.0 after inversion — because the missing
entry is ranked above it. -/
theorem pct_max_not_top_ranked_with_missing :
    pct [some 1, none] false = [1/2, 1] ∧
    pct [some 1, none] true = [1/2, 0] ∧
    (1/2 : ℚ) ≠ 1 ∧ (1/2 : ℚ) ≠ 0 := by
  refine ⟨?_, ?_, by norm_num, by norm_num⟩ <;>
    simp [pct, rank_bottom_pct, List.filter] <;> norm_num

/-- C4 — counterexample.  The all-missing input does not score 0: the
defaulted long-term-debt ratio check (`0/1 < 0.5`) and revenue-to-assets
check (`1/1 > 0`) both pass, giving a score of 2. -/
theorem piotroski_all_missing_is_two :
    piotroski_f_score allMissingInfo = 2 ∧ piotroski_f_score allMissingInfo ≠ 0 := by
  constructor <;> norm_num [piotroski_f_score, allMissingInfo, pyOr]

/-- C4 — amended claim: the Piotroski-style F-score is an integer in [0, 9]
for every input (it is a sum of nine 0/1 indicators), but the input with
every field missing scores 2, not 0, because two of the nine checks pass on
the defaulted values. -/
theorem piotroski_f_score_range :
    (∀ info : FundamentalsInfo, piotroski_f_score info ≤ 9) ∧
    piotroski_f_score allMissingInfo = 2 := by
  constructor
  · intro info
    simp only [piotroski_f_score]
    split_ifs <;> decide
  · norm_num [piotroski_f_score, allMissingInfo, pyOr]

/-- C5 — the per-row `Kelly_Position_Pct` is clipped into [1.0, 25.0] for
every bucket parameterisation and every adjustment-score magnitude, and the
base half-Kelly fraction defaults to 5.0 whenever the win rate is outside
(0, 1) or the average loss is zero. -/
theorem kelly_position_pct_bounds :
    (∀ (win_rate avg_win avg_loss : ℚ) (score : Option ℚ),
      1 ≤ kelly_position_pct win_rate avg_win avg_loss score ∧
      kelly_position_pct win_rate avg_win avg_loss score ≤ 25) ∧
    (∀ win_rate avg_win avg_loss : ℚ,
      avg_loss = 0 ∨ win_rate ≤ 0 ∨ 1 ≤ win_rate →
      kelly_criterion win_rate avg_win avg_loss = 5) := by
  constructor
  · intro win_rate avg_win avg_loss score
    unfold kelly_position_pct
    have h1 : ((1 : ℤ) : ℚ) ≤
        min (max (kelly_criterion win_rate avg_win avg_loss +
          (score.getD 50 - 50) / 200 * 50) 1) 25 := by
      rw [le_min_iff]
      constructor
      · exact_mod_cast le_max_right _ 1
      · norm_num
    have h2 : min (max (kelly_criterion win_rate avg_win avg_loss +
        (score.getD 50 - 50) / 200 * 50) 1) 25 ≤ ((25 : ℤ) : ℚ) := by
      exact_mod_cast min_le_right _ 25
    obtain ⟨hl, hr⟩ := roundTo_bounds 1 h1 h2
    constructor
    · exact_mod_cast hl
    · exact_mod_cast hr
  · intro win_rate avg_win avg_loss h
    unfold kelly_criterion
    rw [if_pos h]

/-- C5 — witness: the bounds hold at the short-term bucket parameters with an
off-scale adjustment score of +1000, and the default fires at a zero average
loss. -/
theorem kelly_position_pct_bounds_witness :
    (1 ≤ kelly_position_pct 0.55 0.25 0.08 (some 1000) ∧
      kelly_position_pct 0.55 0.25 0.08 (some 1000) ≤ 25) ∧
    kelly_criterion 0.6 0.5 0 = 5 :=
  ⟨kelly_position_pct_bounds.1 0.55 0.25 0.08 (some 1000),
   kelly_position_pct_bounds.2 0.6 0.5 0 (Or.inl rfl)⟩

/-- C7 — the Altman-style Z computation yields the missing value (`none`,
never an exception and never `some 0`) whenever any of the eight inputs is
missing or a denominator (total assets or total liabilities) is zero. -/
theorem altman_z_score_missing_on_bad_input
    (ta ca cl re tl eb mc rv : Option ℚ)
    (h : ta = none ∨ ca = none ∨ cl = none ∨ re = none ∨ tl = none ∨
      eb = none ∨ mc = none ∨ rv = none ∨ ta = some 0 ∨ tl = some 0) :
    altman_z_score ta ca cl re tl eb mc rv = none := by
  cases ta <;> cases ca <;> cases cl <;> cases re <;> cases tl <;>
    cases eb <;> cases mc <;> cases rv <;>
    simp_all [altman_z_score]

/-- C7 — witness: zero total assets with every other input present yields
the missing value. -/
theorem altman_z_score_missing_witness :
    altman_z_score (some 0) (some 1) (some 1) (some 1) (some 1) (some 1)
      (some 1) (some 1) = none :=
  altman_z_score_missing_on_bad_input (some 0) (some 1) (some 1) (some 1)
    (some 1) (some 1) (some 1) (some 1)
    (Or.inr (Or.inr (Or.inr (Or.inr (Or.inr (Or.inr (Or.inr (Or.inr
      (Or.inl rfl)))))))))

/-- C10 — the Monte Carlo VaR returns the concrete value 0.0 (not a missing
value) whenever the input series' mean is undefined, its standard deviation
is undefined, or its standard deviation is exactly zero — so a zero-variance
history gets `VaR_95 = 0.0`, the best possible value for the inverted VaR
percentile, instead of being treated as uncomputable. -/
theorem monte_carlo_var_zero_on_degenerate (sampler : NormalSampler)
    (g : ℕ) (log_returns : List ℚ)
    (h : listMean log_returns = none ∨ sampleVariance log_returns = none ∨
      sampleVariance log_returns = some 0) :
    monte_carlo_var sampler g log_returns = (0, g) := by
  have hc : (listMean log_returns).isNone ∨ (sampleVariance log_returns).isNone ∨
      sampleVariance log_returns = some 0 := by
    rcases h with h | h | h
    · exact Or.inl (by simp [h])
    · exact Or.inr (Or.inl (by simp [h]))
    · exact Or.inr (Or.inr h)
  simp only [monte_carlo_var]
  rw [if_pos hc]

/-- C10 — witness: three identical log returns have zero variance, so the
VaR comes out exactly 0.0 (with the ambient state untouched). -/
theorem monte_carlo_var_zero_witness :
    monte_carlo_var zeroSampler 7 [1, 1, 1] = (0, 7) :=
  monte_carlo_var_zero_on_degenerate zeroSampler 7 [1, 1, 1]
    (Or.inr (Or.inr (by norm_num [sampleVariance, List.sum_cons, List.sum_nil])))

/-- C6 — the Monte Carlo VaR is deterministic: its result component depends
only on the input series (and on the normal sampler, itself a pure function
of the fixed seed 42), not on the ambient process random state, so two runs
on identical inputs produce identical output. -/
theorem monte_carlo_var_deterministic (sampler : NormalSampler)
    (g g' : ℕ) (log_returns : List ℚ) :
    (monte_carlo_var sampler g log_returns).1 =
      (monte_carlo_var sampler g' log_returns).1 := by
  simp only [monte_carlo_var]
  by_cases hc : (listMean log_returns).isNone ∨
      (sampleVariance log_returns).isNone ∨ sampleVariance log_returns = some 0
  · rw [if_pos hc, if_pos hc]
  · rw [if_neg hc, if_neg hc]

theorem mem_insertOrd {α : Type} (before : α → α → Bool) (a x : α) (l : List α) :
    x ∈ insertOrd before a l ↔ x = a ∨ x ∈ l := by
  induction l with
  | nil => simp [insertOrd]
  | cons b bs ih =>
      simp only [insertOrd]
      split
      · simp [List.mem_cons]
      · simp only [List.mem_cons, ih]
        tauto

theorem mem_sortOrd {α : Type} (before : α → α → Bool) (x : α) (l : List α) :
    x ∈ sortOrd before l ↔ x ∈ l := by
  induction l with
  | nil => simp [sortOrd]
  | cons a as ih => simp [sortOrd, mem_insertOrd, ih, List.mem_cons]

theorem mem_sort_values (key : Row → List (Option ℚ)) (x : Row) (df : List Row) :
    x ∈ sort_values key df ↔ x ∈ df :=
  mem_sortOrd _ x df

theorem mem_progressive_filter {α : Type} (mask : α → Row → Bool) (rules : List α)
    (cands : List Row) (r : Row) :
    r ∈ progressive_filter mask rules cands → r ∈ cands := by
  induction rules with
  | nil => intro h; simp [progressive_filter] at h
  | cons rule rest ih =>
      cases rest with
      | nil =>
          intro h
          simp only [progressive_filter] at h
          exact (List.mem_filter.mp h).1
      | cons r2 rs =>
          intro h
          simp only [progressive_filter] at h
          split at h
          · exact (List.mem_filter.mp h).1
          · exact ih h

theorem mem_filtered_or_all (cands flt : List Row) (r : Row)
    (hsub : r ∈ flt → r ∈ cands) (h : r ∈ filtered_or_all cands flt) : r ∈ cands := by
  unfold filtered_or_all at h
  split at h
  · exact h
  · exact hsub h

theorem pool_candidates_not_excluded (has_pool : Bool) (df : List Row)
    (tag : String) (ex : List String) (r : Row)
    (h : r ∈ pool_candidates has_pool df tag ex) : r.ticker ∉ ex := by
  simp only [pool_candidates] at h
  by_cases hex : ex.isEmpty
  · rw [List.isEmpty_iff] at hex
    subst hex
    simp
  · simp only [if_neg hex] at h
    split at h <;> split at h <;>
      · have := (List.mem_filter.mp h).2
        simp_all

theorem mt_bucket_mem (has_pool : Bool) (df : List Row) (r : Row)
    (h : r ∈ mt_bucket has_pool df) :
    r ∈ pool_candidates has_pool df "moyen" (ct_tickers has_pool df) := by
  unfold mt_bucket at h
  have h1 := List.mem_of_mem_take h
  have h2 := (mem_sort_values _ _ _).mp h1
  exact mem_filtered_or_all _ _ _ (mem_progressive_filter _ _ _ _) h2

theorem lt_bucket_mem (has_pool : Bool) (df : List Row) (r : Row)
    (h : r ∈ lt_bucket has_pool df) :
    r ∈ pool_candidates has_pool df "long"
      (ct_tickers has_pool df ++ mt_tickers has_pool df) := by
  unfold lt_bucket at h
  have h1 := List.mem_of_mem_take h
  have h2 := (mem_sort_values _ _ _).mp h1
  exact mem_filtered_or_all _ _ _ (mem_progressive_filter _ _ _ _) h2

/-- C1 — the three buckets returned by `build_portfolios` are pairwise
disjoint in their ticker sets for every input universe (any row list, with
or without the `_pool` column): the short bucket is chosen first, the medium
bucket's candidate pool excludes every short-bucket ticker, the long
bucket's pool excludes every short- and medium-bucket ticker, and the
exclusion survives the empty-pool fallback because `_pool_candidates`
re-applies it to the unfiltered frame. -/
theorem build_portfolios_buckets_disjoint (has_pool : Bool) (df : List Row) :
    ((build_portfolios has_pool df).short_term.map (·.ticker)).Disjoint
        ((build_portfolios has_pool df).medium_term.map (·.ticker)) ∧
    ((build_portfolios has_pool df).short_term.map (·.ticker)).Disjoint
        ((build_portfolios has_pool df).long_term.map (·.ticker)) ∧
    ((build_portfolios has_pool df).medium_term.map (·.ticker)).Disjoint
        ((build_portfolios has_pool df).long_term.map (·.ticker)) := by
  simp only [build_portfolios]
  refine ⟨?_, ?_, ?_⟩ <;> intro t h1 h2
  · obtain ⟨r, hr, rfl⟩ := List.mem_map.mp h2
    exact pool_candidates_not_excluded _ _ _ _ _ (mt_bucket_mem _ _ _ hr) h1
  · obtain ⟨r, hr, rfl⟩ := List.mem_map.mp h2
    have hnot := pool_candidates_not_excluded _ _ _ _ _ (lt_bucket_mem _ _ _ hr)
    exact hnot (List.mem_append.mpr (Or.inl h1))
  · obtain ⟨r, hr, rfl⟩ := List.mem_map.mp h2
    have hnot := pool_candidates_not_excluded _ _ _ _ _ (lt_bucket_mem _ _ _ hr)
    exact hnot (List.mem_append.mpr (Or.inr h1))

theorem zipWith_replicate_min {α β γ : Type} (f : α → β → γ) (m k : ℕ) (a : α) (b : β) :
    List.zipWith f (List.replicate m a) (List.replicate k b) =
      List.replicate (min m k) (f a b) := by
  induction m generalizing k with
  | zero => simp
  | succ n ih =>
      cases k with
      | zero => simp
      | succ j =>
          simp only [List.replicate_succ, List.zipWith_cons_cons, ih,
            Nat.succ_min_succ]

theorem pct_change_replicate (n : ℕ) (c : ℚ) (hc : c ≠ 0) :
    pct_change (List.replicate n c) = List.replicate (n - 1) 0 := by
  unfold pct_change
  rw [List.tail_replicate, zipWith_replicate_min]
  have hz : c / c - 1 = 0 := by rw [div_self hc]; ring
  rw [hz, min_eq_right (Nat.sub_le n 1)]

theorem listMean_replicate_zero (k : ℕ) (hk : k ≠ 0) :
    listMean (List.replicate k (0 : ℚ)) = some 0 := by
  unfold listMean
  rw [if_neg (by simpa using hk)]
  simp [List.sum_replicate]

theorem sampleVariance_replicate_zero (k : ℕ) (hk : 2 ≤ k) :
    sampleVariance (List.replicate k (0 : ℚ)) = some 0 := by
  unfold sampleVariance
  rw [if_neg (by simp; omega)]
  simp [List.sum_replicate, List.map_replicate]

theorem cummaxAux_replicate (c : ℚ) (k : ℕ) :
    cummaxAux c (List.replicate k c) = List.replicate k c := by
  induction k with
  | zero => simp [cummaxAux]
  | succ n ih => simp [List.replicate_succ, cummaxAux, max_self, ih]

theorem cummax_replicate (n : ℕ) (c : ℚ) :
    cummax (List.replicate n c) = List.replicate n c := by
  cases n with
  | zero => simp [cummax]
  | succ k => simp [List.replicate_succ, cummax, cummaxAux_replicate]

theorem drawdowns_replicate (n : ℕ) (c : ℚ) :
    drawdowns (List.replicate n c) = List.replicate n 0 := by
  unfold drawdowns
  rw [cummax_replicate, zipWith_replicate_min, min_self]
  simp

theorem foldl_min_replicate (x : ℚ) (k : ℕ) :
    List.foldl min x (List.replicate k x) = x := by
  induction k with
  | zero => rfl
  | succ j ih => simp [List.replicate_succ, ih]

theorem min?_replicate (n : ℕ) (hn : n ≠ 0) (x : ℚ) :
    (List.replicate n x).min? = some x := by
  cases n with
  | zero => exact absurd rfl hn
  | succ k =>
      rw [List.replicate_succ]
      simp only [List.min?, foldl_min_replicate]

/-- C9 — amended claim.  A flat (zero-variance) close series long enough for
the 60-observation minimum yields annualized volatility 0, a missing Sharpe
ratio (the zero-volatility division is guarded), and max drawdown 0; but a
40-bar flat series is below the minimum, so all four outputs are missing —
not the volatility-0/drawdown-0 values the original scenario states. -/
theorem risk_metrics_flat_series (c : ℚ) (n : ℕ) (hc : c ≠ 0) (hn : 60 ≤ n) :
    risk_metrics (List.replicate n c) = ⟨some 0, some 0, none, some 0⟩ ∧
    risk_metrics (List.replicate 40 c) = ⟨none, none, none, none⟩ := by
  constructor
  · have h1 : pct_change (List.replicate n c) = List.replicate (n - 1) 0 :=
      pct_change_replicate n c hc
    have h2 : listMean (List.replicate (n - 1) (0 : ℚ)) = some 0 :=
      listMean_replicate_zero _ (by omega)
    have h3 : sampleVariance (List.replicate (n - 1) (0 : ℚ)) = some 0 :=
      sampleVariance_replicate_zero _ (by omega)
    have h4 : (drawdowns (List.replicate n c)).min? = some 0 := by
      rw [drawdowns_replicate]
      exact min?_replicate n (by omega) 0
    simp only [risk_metrics, List.length_replicate]
    rw [if_neg (by omega), h1, h2, h3]
    simp [h4, Real.sqrt_zero]
  · simp only [risk_metrics, List.length_replicate]
    rw [if_pos (by omega)]

/-- C9 — counterexample.  A 40-bar flat close history is below the
60-observation minimum, so `_risk_metrics` reports every output missing; in
particular the annualized volatility is missing, not 0, and the max drawdown
is missing, not 0. -/
theorem risk_metrics_40_flat_bars_all_missing :
    (risk_metrics (List.replicate 40 (100 : ℚ))).annVolatility = none ∧
    (risk_metrics (List.replicate 40 (100 : ℚ))).maxDrawdown = none ∧
    (none : Option ℝ) ≠ some 0 := by
  refine ⟨?_, ?_, by simp⟩ <;>
    · simp only [risk_metrics, List.length_replicate]
      rw [if_pos (by omega)]

/-- C9 — witness: a 100-bar flat series at price 100 realises the amended
scenario. -/
theorem risk_metrics_flat_series_witness :
    risk_metrics (List.replicate 100 (100 : ℚ)) = ⟨some 0, some 0, none, some 0⟩ ∧
    risk_metrics (List.replicate 40 (100 : ℚ)) = ⟨none, none, none, none⟩ :=
  risk_metrics_flat_series 100 100 (by norm_num) (by norm_num)

/-- C3 — counterexample.  In `build_portfolios` (the function that actually
produces the Long Terme bucket) a candidate that passes the strictest
long-term tier while carrying a Beneish M-score of 0 — far above the −1.78
manipulation threshold — is *not* rejected: it ends up as the long bucket's
selection, because the allocator's rule tuples have only four components and
apply no manipulation gate. -/
theorem lt_bucket_admits_high_beneish :
    (build_portfolios true exampleDf).long_term.map (·.ticker) = ["LT1"] ∧
    ltRow.beneish_m = some 0 ∧ ¬ ((0 : ℚ) ≤ -1.78) ∧
    lt_mask ⟨some 0.10, 55, 7, 2.99⟩ ltRow = true ∧
    (⟨some 0.10, 55, 7, 2.99⟩ : LtRule) ∈ lt_rules := by
  refine ⟨?_, rfl, by norm_num, ?_, by simp [lt_rules]⟩
  · norm_num [build_portfolios, ct_bucket, mt_bucket, lt_bucket, ct_tickers,
      mt_tickers, pool_candidates, sort_values, sortOrd, insertOrd,
      progressive_filter, filtered_or_all, mt_mask, lt_mask, mt_rules, lt_rules,
      exampleDf, ctRow, mtRow, ltRow, List.filter, List.contains, List.elem]
  · norm_num [lt_mask, ltRow]

/-- C3 — amended claim.  The long-horizon relaxation of `build_portfolios`
iterates 4-component tuples (minimum margin-of-safety, minimum deep-value
score, minimum Piotroski count, minimum Altman Z) and never consults the
Beneish M-score; the 5-component tuples with a manipulation-gate flag —
rejecting candidates whose `Beneish_M_Score.fillna(0)` exceeds −1.78
whenever the gate is enabled — belong to the narrative-stage long-term pool
pre-selection (04_perplexity_narrative.py), not to the allocator. -/
theorem lt_relaxation_gate_location :
    (∀ (rule : LtRule) (r : Row) (m : Option ℚ),
      lt_mask rule r = lt_mask rule { r with beneish_m := m }) ∧
    (∀ (ex : List String) (rule : LtRuleNarrative), rule ∈ lt_rules_narrative →
      rule.ben_gate = true → ∀ r : Row, (-1.78 : ℚ) < r.beneish_m.getD 0 →
      lt_mask_narrative ex rule r = false) := by
  constructor
  · intro rule r m
    rfl
  · intro ex rule _ hgate r hben
    unfold lt_mask_narrative
    rw [hgate]
    have hno : ¬ (r.beneish_m.getD 0 ≤ (-1.78 : ℚ)) := not_le.mpr hben
    simp [hno]

/-- C3 — witness: the allocator's mask is unchanged by rewriting the Beneish
score, and the narrative-stage strict tier (gate enabled) rejects the
M-score-0 row. -/
theorem lt_relaxation_gate_location_witness :
    lt_mask ⟨some 0.10, 55, 7, 2.99⟩ ltRow =
      lt_mask ⟨some 0.10, 55, 7, 2.99⟩ { ltRow with beneish_m := some 99 } ∧
    lt_mask_narrative [] ⟨some 0.10, 55, 7, 2.99, true⟩ ltRow = false :=
  ⟨lt_relaxation_gate_location.1 _ ltRow (some 99),
   lt_relaxation_gate_location.2 [] _ (by simp [lt_rules_narrative]) rfl ltRow
     (by norm_num [ltRow])⟩

end QuantScreener
